import Mathlib

/-!
Verification of `single_cell_tools/attach_to_notebook.py`.

The Python source is shallowly embedded: Python strings become `String`
(scanned as `List Char`), JSON notebook documents become explicit
structures, file/parse failures become `Option` inputs (`none` = the
`except` branch was taken), and the live kernel session's blocking
receive loop becomes a step function over an explicit list of inputs
(messages and asynchronously delivered signals).
-/

namespace AttachToNotebook

/-! ## Stream Reassembler (`_process_stream`, lines 240-269)

The Python loop walks `combined = buf + text` with an index `i`, an
accumulator `current` (initially empty) and a grown list `completed`.
We walk the character list instead; each branch mirrors one branch of
the `while` loop body. -/

/-- Embedding of the `while i < len(combined)` loop of `_process_stream`.
First argument is the unread suffix of `combined`, second is `current`,
third is `completed`. -/
def processStreamLoop : List Char → List Char → List (List Char) →
    List Char × List (List Char)
  | [], current, completed => (current, completed)
  | c :: rest, current, completed =>
    if c = '\r' then
      -- `if i + 1 < len(combined) and combined[i + 1] == "\n"`
      match rest with
      | c2 :: rest2 =>
        if c2 = '\n' then
          processStreamLoop rest2 [] (completed ++ [current ++ ['\n']])
        else
          processStreamLoop (c2 :: rest2) [] completed
      | [] => processStreamLoop [] [] completed
    else if c = '\n' then
      processStreamLoop rest [] (completed ++ [current ++ ['\n']])
    else
      processStreamLoop rest (current ++ [c]) completed

/-- `_process_stream(buf, text)`: returns `(new_buf, completed_lines)`. -/
def processStream (buf text : String) : String × List String :=
  let r := processStreamLoop (buf ++ text).data [] []
  (String.mk r.1, r.2.map String.mk)

/-! ## Stream Reassembler, as specified

Follows the spec's words (spec section 4.1): scan `incomingChunk`
character by character, maintaining a `current` accumulator seeded with
`pendingBuffer`; line-feed emits `current ++ "\n"` and resets; a
carriage-return immediately followed by a line-feed is one terminator;
a bare carriage-return discards `current`; anything else is appended. -/

/-- Per-character scan of the incoming chunk, as the spec words it. -/
def reassembleSpecLoop : List Char → List Char → List (List Char) →
    List Char × List (List Char)
  | [], current, completed => (current, completed)
  | c :: rest, current, completed =>
    if c = '\r' then
      match rest with
      | c2 :: rest2 =>
        if c2 = '\n' then
          reassembleSpecLoop rest2 [] (completed ++ [current ++ ['\n']])
        else
          reassembleSpecLoop (c2 :: rest2) [] completed
      | [] => reassembleSpecLoop [] [] completed
    else if c = '\n' then
      reassembleSpecLoop rest [] (completed ++ [current ++ ['\n']])
    else
      reassembleSpecLoop rest (current ++ [c]) completed

/-- `reassemble(pendingBuffer, incomingChunk)` per the spec: the
accumulator starts as the pending buffer and only the chunk is scanned. -/
def reassembleSpec (pendingBuffer incomingChunk : String) : String × List String :=
  let r := reassembleSpecLoop incomingChunk.data pendingBuffer.data []
  (String.mk r.1, r.2.map String.mk)

/-- A character that is neither of the two terminator characters. -/
abbrev PlainChar (c : Char) : Prop := c ≠ '\r' ∧ c ≠ '\n'

/-! ## Persisted notebook document (History Reader)

A notebook is a JSON file; reading it can fail (`except Exception`), so
every reader takes an `Option Notebook` (`none` = the open/parse raised).
An output's `text` and a cell's `source` may be either a string or a
list of strings in JSON; the code joins lists, so both are modelled as
the joined `String`. -/

/-- A Jupyter `data` bundle as used by `_print_rich_output`: the
`text/html` and `text/plain` entries (absent entries are `""`, matching
`data.get(..., "")`). -/
structure RichData where
  html : String
  text : String
deriving DecidableEq

/-- One entry of a code cell's `outputs` array. -/
structure Output where
  output_type : String
  text : String
  data : RichData
  traceback : List String
deriving DecidableEq

/-- One notebook cell. `execution_count = none` models JSON `null` or a
missing key. -/
structure Cell where
  cell_type : String
  source : String
  outputs : List Output
  execution_count : Option Nat
deriving DecidableEq

/-- A parsed notebook document: its `cells` array and
`metadata.kernelspec.language` (`none` = the key is missing). -/
structure Notebook where
  cells : List Cell
  language : Option String
deriving DecidableEq

/-- Python truthiness of `c.get("execution_count")`: `None` and `0` are
falsy. -/
def ecTruthy : Option Nat → Bool
  | none => false
  | some n => n != 0

/-- Python `c.get("execution_count") or 0`. -/
def ecOrZero : Option Nat → Nat
  | none => 0
  | some n => n

/-- `_notebook_cell_stats` (lines 73-91): `(total_code_cells,
max_execution_count, kernel_language)`; any exception yields
`(0, 0, "python")`. -/
def notebookCellStats (onb : Option Notebook) : Nat × Nat × String :=
  match onb with
  | none => (0, 0, "python")
  | some nb =>
    let code_cells := nb.cells.filter (fun c => c.cell_type = "code")
    let total := code_cells.length
    let max_ec := code_cells.foldl (fun m c => max m (ecOrZero c.execution_count)) 0
    let lang := (nb.language.getD "python").toLower
    (total, max_ec, lang)

/-- Python `max(in_progress, key=lambda c: c["execution_count"])`: the
first element attaining the maximal key (`max` only replaces its running
best on a strictly greater key). -/
def pyMaxByEC : List Cell → Option Cell
  | [] => none
  | c :: rest =>
    some (rest.foldl
      (fun best x =>
        if ecOrZero best.execution_count < ecOrZero x.execution_count then x
        else best)
      c)

/-- The `for i, c in enumerate(cells)` loop computing
`last_complete_idx` in `_find_likely_executing_cell`: the running index
starts at `-1` and is overwritten by the index of every cell with
non-empty outputs. -/
def lastCompleteIdxAux : List Cell → Int → Int → Int
  | [], _, acc => acc
  | c :: rest, i, acc =>
    lastCompleteIdxAux rest (i + 1) (if c.outputs.isEmpty then acc else i)

/-- The execution count as displayed by strategy B:
`candidate.get("execution_count") or "?"`, with `none` standing for
`"?"`. -/
def displayEC (c : Cell) : Option Nat :=
  if ecTruthy c.execution_count then c.execution_count else none

/-- The body of `_find_likely_executing_cell` from the `cells = [...]`
filter on (lines 146-170), on the already-filtered code cells. Strategy
A: cells with a truthy execution_count and empty outputs, highest count
first (Python `max` keeps the earliest of equals). Strategy B: the cell
after the last cell with non-empty outputs, starting from index `-1`
when there is none. -/
def findLikelyFromCells (cells : List Cell) :
    Option (String × List Output × Option Nat) :=
  match pyMaxByEC
      (cells.filter (fun c => ecTruthy c.execution_count && c.outputs.isEmpty)) with
  | some candidate =>
    some (candidate.source, candidate.outputs, candidate.execution_count)
  | none =>
    if lastCompleteIdxAux cells 0 (-1) + 1 < (cells.length : Int) then
      match cells[(lastCompleteIdxAux cells 0 (-1) + 1).toNat]? with
      | some candidate => some (candidate.source, candidate.outputs, displayEC candidate)
      | none => none
    else none

/-- `_find_likely_executing_cell` (lines 132-170). Returns
`(source, outputs, execution_count)`; the third component is `Option Nat`
(`none` renders as `"?"`). -/
def findLikelyExecutingCell (onb : Option Notebook) :
    Option (String × List Output × Option Nat) :=
  match onb with
  | none => none
  | some nb => findLikelyFromCells (nb.cells.filter (fun c => c.cell_type = "code"))

/-- Claim C10 definition: the counter seeding of `main` (lines 316-319):
`if kernel_state == "busy" and cells_executed > 0: cells_executed += 1`. -/
def seedCellsExecuted (kernel_state : String) (cells_executed : Nat) : Nat :=
  if kernel_state = "busy" ∧ 0 < cells_executed then cells_executed + 1
  else cells_executed

/-! ## Likely-running-unit heuristic, as specified (for claim C7)

The claim's selector: (a) if some code unit has an assigned (truthy)
sequence number and empty outputs, the highest-numbered such unit
(document order breaking ties, the only deterministic reading); (b)
otherwise the unit immediately following the last unit with non-empty
outputs, if such a following unit exists; otherwise none. -/

/-- The last index carrying non-empty outputs, as an `Option Nat`
(`none` when no unit has outputs — the case where the spec's "unit
immediately following the last unit with non-empty outputs" does not
refer to anything). -/
def lastNonemptyOutputsIdxAux : List Cell → Nat → Option Nat → Option Nat
  | [], _, acc => acc
  | c :: rest, i, acc =>
    lastNonemptyOutputsIdxAux rest (i + 1) (if c.outputs.isEmpty then acc else some i)

/-- The likely-running unit exactly as claim C7 words it, on the code
cells of the document. -/
def likelySpecFromCells (cells : List Cell) : Option Cell :=
  match pyMaxByEC
      (cells.filter (fun c => ecTruthy c.execution_count && c.outputs.isEmpty)) with
  | some candidate => some candidate
  | none =>
    match lastNonemptyOutputsIdxAux cells 0 none with
    | some i => cells[(i + 1)]?
    | none => none

/-- The likely-running unit exactly as claim C7 words it. -/
def likelyRunningUnitSpec (nb : Notebook) : Option Cell :=
  likelySpecFromCells (nb.cells.filter (fun c => c.cell_type = "code"))

/-- The likely-running unit as claim C7 amended: when no unit has
non-empty outputs (and strategy A does not apply), the first code unit
is returned, if the document has one. -/
def likelyAmendedFromCells (cells : List Cell) : Option Cell :=
  match pyMaxByEC
      (cells.filter (fun c => ecTruthy c.execution_count && c.outputs.isEmpty)) with
  | some candidate => some candidate
  | none =>
    match lastNonemptyOutputsIdxAux cells 0 none with
    | some i => cells[(i + 1)]?
    | none => cells.head?

/-- Claim C7 amended, per notebook. -/
def likelyRunningUnitAmended (nb : Notebook) : Option Cell :=
  likelyAmendedFromCells (nb.cells.filter (fun c => c.cell_type = "code"))

/-- What `_find_likely_executing_cell` reports about a selected cell. -/
def cellResult (c : Cell) : String × List Output × Option Nat :=
  (c.source, c.outputs, displayEC c)

/-! ## Rendering model

Console output is modelled as a list of render items, one per
`console.print` family call. -/

inductive RenderItem where
  | plain (s : String)
  | markdown (s : String)
  | line (s : String)
  | codeBlock (code : String) (title : String) (language : String)
  | errorTrace (s : String)
  | header (s : String)
  | clearScreen
  | message (s : String)
deriving DecidableEq

/-- `_print_rich_output` (lines 94-114): prefer `text/html` converted by
`markdownify` (taken as a parameter) when the conversion strips to
something non-empty, otherwise fall back to `text/plain`. -/
def printRichOutput (markdownify : String → String) (data : RichData) :
    List RenderItem :=
  if data.html ≠ "" then
    let md := (markdownify data.html).trim
    if md ≠ "" then [RenderItem.markdown md]
    else if data.text ≠ "" then [RenderItem.plain data.text] else []
  else if data.text ≠ "" then [RenderItem.plain data.text] else []

/-- `_print_code_block` (lines 117-129): nothing is rendered for
whitespace-only code. -/
def printCodeBlock (code : String) (title : String) (language : String) :
    List RenderItem :=
  if code.trim = "" then [] else [RenderItem.codeBlock code title language]

/-- The `for output in outputs` rendering loop, duplicated at lines
197-208 and 217-228 of the source. -/
def renderOutputs (markdownify : String → String) (outputs : List Output) :
    List RenderItem :=
  outputs.foldl
    (fun acc o =>
      if o.output_type = "stream" then acc ++ [RenderItem.line o.text]
      else if o.output_type = "execute_result" ∨ o.output_type = "display_data" then
        acc ++ printRichOutput markdownify o.data
      else if o.output_type = "error" then
        acc ++ [RenderItem.errorTrace (String.intercalate "\n" o.traceback)]
      else acc)
    []

/-- The `for cell in nb.get("cells", [])` loop of
`_print_last_cell_output` keeping the last code cell with outputs. -/
def lastCellWithOutput (nb : Notebook) : Option Cell :=
  nb.cells.foldl
    (fun acc c =>
      if c.cell_type = "code" ∧ ¬c.outputs.isEmpty then some c else acc)
    none

/-- Rendering of an execution count with the `or "?"` fallback. -/
def ecText (c : Cell) : String :=
  match displayEC c with
  | some n => toString n
  | none => "?"

/-- `_print_last_cell_output` (lines 173-229): renders the last code
cell with non-empty outputs, and, when the kernel is busy, the likely
currently executing cell; an unreadable/unparseable notebook renders
nothing. -/
def printLastCellOutput (markdownify : String → String) (onb : Option Notebook)
    (language : String) (is_busy : Bool) : List RenderItem :=
  match onb with
  | none => []
  | some nb =>
    let part1 :=
      match lastCellWithOutput nb with
      | some cell =>
        [RenderItem.header ("--- Last cell output [execution count: "
            ++ ecText cell ++ "] ---")]
          ++ printCodeBlock cell.source (ecText cell) language
          ++ renderOutputs markdownify cell.outputs
          ++ [RenderItem.header "--- End of last cell output ---"]
      | none => []
    let part2 :=
      if is_busy then
        match findLikelyExecutingCell (some nb) with
        | some (source, outputs, _ec) =>
          [RenderItem.header "--- Currently executing cell ---"]
            ++ printCodeBlock source "..." language
            ++ renderOutputs markdownify outputs
            ++ [RenderItem.header "--- (live outputs will stream below) ---"]
        | none => []
      else []
    part1 ++ part2

/-! ## Live View Renderer status bar (`_make_status_bar`, lines 272-289) -/

/-- The `_STATE_STYLE` table (lines 233-237). -/
def stateStyle (s : String) : Option (String × String) :=
  if s = "idle" then some ("●", "bold green")
  else if s = "busy" then some ("●", "bold yellow")
  else if s = "starting" then some ("●", "bold blue")
  else none

/-- The `filled` computation of `_make_status_bar`: `int(width *
cells_executed / total_cells) if total_cells else 0`, then
`min(filled, width)`. Python computes the quotient in floating point
before truncating; natural-number division stands in for it, which is
immaterial to the clamp. -/
def statusBarFilled (cells_executed total_cells : Nat) : Nat :=
  let width := 20
  let filled := if total_cells ≠ 0 then width * cells_executed / total_cells else 0
  min filled width

/-- `_make_status_bar`: the styled text segments appended to the bar, as
`(text, style)` pairs. -/
def makeStatusBar (kernel_state : String) (cells_executed total_cells : Nat) :
    List (String × String) :=
  let sty := (stateStyle kernel_state).getD ("●", "bold red")
  let filled := statusBarFilled cells_executed total_cells
  [("\n", ""),
   (" Kernel: ", "bold"),
   (sty.1 ++ " " ++ kernel_state, sty.2),
   ("  │  ", "dim"),
   ("Cells: ", "bold"),
   (String.mk (List.replicate filled '█'), "bold cyan"),
   (String.mk (List.replicate (20 - filled) '░'), "dim"),
   (" " ++ toString cells_executed ++ "/" ++ toString total_cells, "bold")]

/-! ## Theorems about the History Reader and the status bar -/

/-- `-1`-based encoding of an optional index, connecting the source's
integer fold to the optional fold. -/
def intOfIdx : Option Nat → Int
  | none => -1
  | some n => (n : Int)

/-! ## Session Locator (`_find_kernel_connection_file`, lines 15-70)

Filesystem and HTTP effects are abstracted: each candidate discovery
endpoint (one `*server-*.json`, already mtime-ordered) is either a
failure (`err`: any exception while reading the server file, querying
`/api/sessions`, or walking its sessions — all land in the
`except Exception: continue`), a server record with an empty `url`
(skipped by `continue`), or a fetched sessions listing. Path
resolution `os.path.abspath(os.path.join(root_dir, session["path"]))`
is abstracted into the session's `resolved_path`, and
`jupyter_client.find_connection_file` into a function parameter. -/

/-- One session descriptor returned by a discovery endpoint. -/
structure SessionDesc where
  resolved_path : String
  kernel_id : String
  execution_state : Option String
deriving DecidableEq

/-- What querying one candidate endpoint yields. -/
inductive EndpointResult where
  | err
  | noUrl
  | ok (sessions : List SessionDesc)
deriving DecidableEq

/-- The `for session in sessions` loop: first session whose resolved
absolute path equals the notebook's absolute path wins; the reported
state defaults to `"idle"` (`kernel.get("execution_state", "idle")`). -/
def sessionsMatch : List SessionDesc → String → Option (String × String)
  | [], _ => none
  | s :: rest, abs_notebook =>
    if s.resolved_path = abs_notebook then
      some (s.kernel_id, s.execution_state.getD "idle")
    else sessionsMatch rest abs_notebook

/-- `_find_kernel_connection_file`: walk the candidate endpoints in
order, swallowing every per-endpoint failure, and return
`(connection_file, execution_state)` of the first matching session;
`none` on exhaustion. -/
def findKernelConnectionFile (find_connection_file : String → String) :
    List EndpointResult → String → Option (String × String)
  | [], _ => none
  | EndpointResult.err :: rest, abs_notebook =>
    findKernelConnectionFile find_connection_file rest abs_notebook
  | EndpointResult.noUrl :: rest, abs_notebook =>
    findKernelConnectionFile find_connection_file rest abs_notebook
  | EndpointResult.ok sessions :: rest, abs_notebook =>
    match sessionsMatch sessions abs_notebook with
    | some (kernel_id, execution_state) =>
      some (find_connection_file kernel_id, execution_state)
    | none => findKernelConnectionFile find_connection_file rest abs_notebook

/-- An endpoint that cannot produce a match for `abs_notebook`: it fails
(or has no url), or none of its sessions resolve to that path. -/
def endpointNoMatch (e : EndpointResult) (abs_notebook : String) : Bool :=
  match e with
  | EndpointResult.err => true
  | EndpointResult.noUrl => true
  | EndpointResult.ok sessions => (sessionsMatch sessions abs_notebook).isNone

/-! ## Event Dispatcher (`main`, lines 333-401)

The blocking receive loop is modelled as a step function over an
explicit input trace. A `LoopInput` is what one turn of the loop
observes: either the next iopub message, or an asynchronous event
raised at the blocking `get_iopub_msg` call — `KeyboardInterrupt`
(cancel-and-detach), the SIGTSTP-driven `_DetachOnly` (detach-only), or
any other exception from the channel. Console output is collected in
`printed`; `markdownify` and the notebook language are parameters as in
the rendering model above. -/

/-- The `content` dict of an iopub message; absent keys are `none`/`""`
matching the `.get` defaults used by the source. -/
structure KContent where
  execution_state : Option String
  execution_count : Option Nat
  code : String
  text : String
  data : RichData
  traceback : List String
deriving DecidableEq

/-- One iopub message: `msg["msg_type"]` and `msg["content"]`. -/
structure KMsg where
  msg_type : String
  content : KContent
deriving DecidableEq

/-- The mutable state of the receive loop. -/
structure LoopState where
  kernel_state : String
  cells_executed : Nat
  total_cells : Nat
  stream_buf : String
  printed : List RenderItem
deriving DecidableEq

/-- One iteration of the `while True` dispatch (lines 352-386) on a
received message. Returns the updated state and whether the loop
`return`s (only the `status`/`dead` branch does). -/
def stepMsg (markdownify : String → String) (language : String)
    (m : KMsg) (st : LoopState) : LoopState × Bool :=
  let content := m.content
  if m.msg_type = "status" then
    let ks := content.execution_state.getD st.kernel_state
    if ks = "dead" then
      ({ st with
          kernel_state := ks
          printed := st.printed ++ [RenderItem.message "Kernel has been closed."] },
        true)
    else ({ st with kernel_state := ks }, false)
  else if m.msg_type = "execute_input" then
    let ec := ecOrZero content.execution_count
    ({ st with
        cells_executed := max st.cells_executed ec
        printed := st.printed ++ printCodeBlock content.code (toString ec) language },
      false)
  else if m.msg_type = "stream" then
    let r := processStream st.stream_buf content.text
    ({ st with
        stream_buf := r.1
        printed := st.printed ++ r.2.map RenderItem.line },
      false)
  else if m.msg_type = "execute_result" then
    ({ st with printed := st.printed ++ printRichOutput markdownify content.data }, false)
  else if m.msg_type = "display_data" then
    ({ st with printed := st.printed ++ printRichOutput markdownify content.data }, false)
  else if m.msg_type = "error" then
    ({ st with printed := st.printed
        ++ [RenderItem.errorTrace (String.intercalate "\n" content.traceback)] },
      false)
  else if m.msg_type = "clear_output" then
    ({ st with printed := st.printed ++ [RenderItem.clearScreen] }, false)
  else (st, false)

/-- What one turn of the blocking receive observes. -/
inductive LoopInput where
  | msg (m : KMsg)
  | interrupt
  | detach
  | recvError
deriving DecidableEq

/-- How control left the `while True` loop. `exhausted` is a model
artifact: the input trace ended while the loop was still blocked. -/
inductive ExitCause where
  | deadStatus
  | interrupted
  | detached
  | errored
  | exhausted
deriving DecidableEq

/-- The receive loop: consume inputs until a terminating one; returns
the final state, the exit cause, and the inputs left unconsumed. -/
def processLoop (markdownify : String → String) (language : String) :
    List LoopInput → LoopState → LoopState × ExitCause × List LoopInput
  | [], st => (st, ExitCause.exhausted, [])
  | LoopInput.interrupt :: rest, st => (st, ExitCause.interrupted, rest)
  | LoopInput.detach :: rest, st => (st, ExitCause.detached, rest)
  | LoopInput.recvError :: rest, st => (st, ExitCause.errored, rest)
  | LoopInput.msg m :: rest, st =>
    let r := stepMsg markdownify language m st
    if r.2 then (r.1, ExitCause.deadStatus, rest)
    else processLoop markdownify language rest r.1

/-- Operations performed on the kernel client, in order. -/
inductive ChannelOp where
  | loadConnectionFile
  | startChannels
  | sendCancel
  | stopChannels
deriving DecidableEq, BEq

/-- Outcome of one attached session. -/
structure SessionResult where
  state : LoopState
  cause : ExitCause
  unconsumed : List LoopInput
  cancels_sent : Nat
  channel_ops : List ChannelOp
deriving DecidableEq

/-- The session body of `main` (lines 333-401): load the connection
file and start channels, run the receive loop, handle
`KeyboardInterrupt` by a single best-effort cancel control-request send
(`send_ok = false` models the send raising, which only adds a warning),
handle `_DetachOnly` by a message only, and always run the `finally`
teardown (`stop_channels`) exactly once. -/
def mainSession (markdownify : String → String) (language : String)
    (send_ok : Bool) (inputs : List LoopInput) (st0 : LoopState) : SessionResult :=
  let r := processLoop markdownify language inputs st0
  let st1 := r.1
  let cause := r.2.1
  let st2 :=
    match cause with
    | ExitCause.interrupted =>
      if send_ok then
        { st1 with printed := st1.printed
            ++ [RenderItem.message "Interrupting kernel and detaching..."] }
      else
        { st1 with printed := st1.printed
            ++ [RenderItem.message "Interrupting kernel and detaching...",
                RenderItem.message "Warning: could not send interrupt to kernel"] }
    | ExitCause.detached =>
      { st1 with printed := st1.printed
          ++ [RenderItem.message "Detaching from kernel..."] }
    | _ => st1
  { state := st2,
    cause := cause,
    unconsumed := r.2.2,
    cancels_sent := match cause with | ExitCause.interrupted => 1 | _ => 0,
    channel_ops :=
      [ChannelOp.loadConnectionFile, ChannelOp.startChannels]
        ++ (match cause with
            | ExitCause.interrupted => [ChannelOp.sendCancel]
            | _ => [])
        ++ [ChannelOp.stopChannels] }

/-- The two scanning loops have identical per-character behaviour; they
differ only in how their callers seed the accumulator. -/
theorem processStreamLoop_eq_reassembleSpecLoop (l cur comp) :
    processStreamLoop l cur comp = reassembleSpecLoop l cur comp := by
  induction l, cur, comp using processStreamLoop.induct with
  | case1 current completed => rfl
  | case2 current completed rest2 ih =>
    rw [processStreamLoop, reassembleSpecLoop]; simpa using ih
  | case3 current completed c2 rest2 h ih =>
    rw [processStreamLoop, reassembleSpecLoop]
    simp only [if_pos rfl, if_neg h]; exact ih
  | case4 current completed ih =>
    rw [processStreamLoop, reassembleSpecLoop]; simpa using ih
  | case5 rest current completed h ih =>
    rw [processStreamLoop.eq_def, reassembleSpecLoop.eq_def]
    simp only [if_neg h, if_pos rfl]; exact ih
  | case6 c rest current completed h1 h2 ih =>
    rw [processStreamLoop.eq_def, reassembleSpecLoop.eq_def]
    simp only [if_neg h1, if_neg h2]; exact ih

/-- Scanning a terminator-free prefix just moves it into the accumulator. -/
theorem processStreamLoop_plain_prefix (p : List Char)
    (hp : ∀ c ∈ p, PlainChar c) :
    ∀ l cur comp, processStreamLoop (p ++ l) cur comp
      = processStreamLoop l (cur ++ p) comp := by
  induction p with
  | nil => intro l cur comp; simp
  | cons a p ih =>
    intro l cur comp
    have ha := hp a (List.mem_cons_self a p)
    rw [List.cons_append, processStreamLoop.eq_def]
    simp only [if_neg ha.1, if_neg ha.2]
    rw [ih (fun c hc => hp c (List.mem_cons_of_mem a hc)) l (cur ++ [a]) comp]
    simp

/-- The in-progress accumulator only ever grows by non-terminator
characters (or is reset), so the loop's final accumulator is
terminator-free whenever the initial one is. -/
theorem processStreamLoop_plain_current (l cur comp)
    (hc : ∀ c ∈ cur, PlainChar c) :
    ∀ c ∈ (processStreamLoop l cur comp).1, PlainChar c := by
  induction l, cur, comp using processStreamLoop.induct with
  | case1 current completed => simpa [processStreamLoop] using hc
  | case2 current completed rest2 ih =>
    rw [processStreamLoop]
    exact ih (by simp [PlainChar])
  | case3 current completed c2 rest2 h ih =>
    rw [processStreamLoop]
    simp only [if_pos rfl, if_neg h]
    exact ih (by simp [PlainChar])
  | case4 current completed ih =>
    rw [processStreamLoop]
    exact ih (by simp [PlainChar])
  | case5 rest current completed h ih =>
    rw [processStreamLoop.eq_def]
    simp only [if_neg h, if_pos rfl]
    exact ih (by simp [PlainChar])
  | case6 c rest current completed h1 h2 ih =>
    rw [processStreamLoop.eq_def]
    simp only [if_neg h1, if_neg h2]
    refine ih ?_
    intro x hx
    rcases List.mem_append.1 hx with hx | hx
    · exact hc x hx
    · simp only [List.mem_singleton] at hx
      subst hx; exact ⟨h1, h2⟩

/-- Claim C1: for every pending buffer (a `PendingLineBuffer`, which by
the data model is the not-yet-terminated suffix of the stream and hence
contains no terminator character) and every incoming chunk,
`_process_stream` returns exactly what the spec's seeded
character-by-character scan of the chunk returns; in particular
`reassemble("", "line1\r\nline2")` yields completed lines `["line1\n"]`
and pending buffer `"line2"`, and `reassemble("abc", "\rxy")` yields
pending buffer `"xy"` and no completed lines. -/
theorem processStream_eq_reassembleSpec (buf text : String)
    (hbuf : ∀ c ∈ buf.data, PlainChar c) :
    processStream buf text = reassembleSpec buf text
    ∧ processStream "" "line1\r\nline2" = ("line2", ["line1\n"])
    ∧ processStream "abc" "\rxy" = ("xy", ([] : List String)) := by
  refine ⟨?_, by decide, by decide⟩
  unfold processStream reassembleSpec
  rw [String.data_append, processStreamLoop_plain_prefix buf.data hbuf,
    processStreamLoop_eq_reassembleSpecLoop]
  simp

/-- Claim C1 witness: the theorem applied at the concrete input
`buf = "abc"`, `text = "\rxy"`. -/
theorem processStream_eq_reassembleSpec_witness :
    processStream "abc" "\rxy" = reassembleSpec "abc" "\rxy"
    ∧ processStream "" "line1\r\nline2" = ("line2", ["line1\n"])
    ∧ processStream "abc" "\rxy" = ("xy", ([] : List String)) :=
  processStream_eq_reassembleSpec "abc" "\rxy" (by decide)

/-- Claim C5 counterexample: the claim quantifies over all strings, but
for the pending-buffer argument `"\n"` (which contains a terminator)
`_process_stream("\n", "")` re-scans the buffer and emits the line,
returning `("", ["\n"])` rather than `("\n", [])`. -/
theorem processStream_empty_chunk_counterexample :
    processStream "\n" "" ≠ ("\n", ([] : List String))
    ∧ processStream "\n" "" = ("", ["\n"]) := by
  exact ⟨by decide, by decide⟩

/-- Claim C5 (amended): for every pending buffer that contains no
terminator character (the invariant the program maintains for its
pending buffers), `reassemble(buf, "")` returns `(buf, [])`. -/
theorem processStream_empty_chunk (buf : String)
    (hbuf : ∀ c ∈ buf.data, PlainChar c) :
    processStream buf "" = (buf, ([] : List String)) := by
  unfold processStream
  rw [String.data_append]
  have h0 : ("" : String).data = ([] : List Char) := rfl
  rw [h0, processStreamLoop_plain_prefix buf.data hbuf [] [] []]
  simp [processStreamLoop]

/-- Claim C5 (amended) witness: the amended theorem applied at
`buf = "abc"`. -/
theorem processStream_empty_chunk_witness :
    processStream "abc" "" = ("abc", ([] : List String)) :=
  processStream_empty_chunk "abc" (by decide)

/-- Claim C6: for every pending buffer and every incoming chunk, the new
pending buffer returned by `_process_stream` contains no terminator
character — neither a line-feed nor a carriage-return. -/
theorem processStream_buf_plain (buf text : String) :
    ∀ c ∈ (processStream buf text).1.data, c ≠ '\r' ∧ c ≠ '\n' := by
  unfold processStream
  intro c hc
  exact processStreamLoop_plain_current (buf ++ text).data [] []
    (by simp) c (by simpa using hc)

/-- Claim C6 witness: the theorem applied at the concrete input
`buf = "a"`, `text = "b\rc"`, whose resulting pending buffer is `"c"`. -/
theorem processStream_buf_plain_witness : ('c' : Char) ≠ '\r' ∧ ('c' : Char) ≠ '\n' :=
  processStream_buf_plain "a" "b\rc" 'c' (by decide)

/-- The two `last index with outputs` folds agree under the `-1`
encoding. -/
theorem lastCompleteIdxAux_eq (cells : List Cell) :
    ∀ (i : Nat) (acc : Option Nat),
      lastCompleteIdxAux cells (i : Int) (intOfIdx acc)
        = intOfIdx (lastNonemptyOutputsIdxAux cells i acc) := by
  induction cells with
  | nil => intro i acc; rfl
  | cons c rest ih =>
    intro i acc
    rw [lastCompleteIdxAux, lastNonemptyOutputsIdxAux]
    have hcast : ((i + 1 : Nat) : Int) = (i : Int) + 1 := by push_cast; ring
    by_cases h : c.outputs.isEmpty = true
    · rw [if_pos h, if_pos h, ← hcast, ih (i + 1) acc]
    · rw [if_neg h, if_neg h]
      have hi := ih (i + 1) (some i)
      rw [hcast] at hi
      exact hi

/-- Python's `max` over a non-empty list returns one of its elements. -/
theorem pyMaxByEC_mem (l : List Cell) (c : Cell) (h : pyMaxByEC l = some c) :
    c ∈ l := by
  match l with
  | [] => exact absurd h (by simp [pyMaxByEC])
  | a :: rest =>
    have hfold : ∀ (xs : List Cell) (b : Cell),
        xs.foldl (fun best x =>
          if ecOrZero best.execution_count < ecOrZero x.execution_count then x
          else best) b = b
        ∨ xs.foldl (fun best x =>
            if ecOrZero best.execution_count < ecOrZero x.execution_count then x
            else best) b ∈ xs := by
      intro xs
      induction xs with
      | nil => intro b; left; rfl
      | cons x xs ih =>
        intro b
        rw [List.foldl_cons]
        rcases ih (if ecOrZero b.execution_count < ecOrZero x.execution_count
            then x else b) with h1 | h1
        · rw [h1]
          by_cases hx : ecOrZero b.execution_count < ecOrZero x.execution_count
          · right; simp [hx]
          · left; simp [hx]
        · right; exact List.mem_cons_of_mem x h1
    simp only [pyMaxByEC, Option.some.injEq] at h
    rcases hfold rest a with h1 | h1
    · rw [← h]; rw [h1]; exact List.mem_cons_self a rest
    · rw [← h]; exact List.mem_cons_of_mem a h1

/-- On any list of code cells, the source's selector agrees with the
amended spec selector. -/
theorem findLikelyFromCells_eq_amended (cells : List Cell) :
    findLikelyFromCells cells = (likelyAmendedFromCells cells).map cellResult := by
  unfold findLikelyFromCells likelyAmendedFromCells
  cases hmax : pyMaxByEC
      (cells.filter (fun c => ecTruthy c.execution_count && c.outputs.isEmpty)) with
  | some cand =>
    have hmem := pyMaxByEC_mem _ cand hmax
    have htr : ecTruthy cand.execution_count = true := by
      have h2 := (List.mem_filter.1 hmem).2
      simp only [Bool.and_eq_true] at h2
      exact h2.1
    simp [cellResult, displayEC, htr]
  | none =>
    have hbridge := lastCompleteIdxAux_eq cells 0 none
    cases hlast : lastNonemptyOutputsIdxAux cells 0 none with
    | none =>
      rw [hlast] at hbridge
      have hb : lastCompleteIdxAux cells 0 (-1) = -1 := by
        simpa [intOfIdx] using hbridge
      rw [hb]
      cases cells with
      | nil => simp
      | cons c cs => norm_num [cellResult]
    | some i =>
      rw [hlast] at hbridge
      have hb : lastCompleteIdxAux cells 0 (-1) = (i : Int) := by
        simpa [intOfIdx] using hbridge
      rw [hb]
      have htn : ((i : Int) + 1).toNat = i + 1 := by omega
      by_cases hlen : i + 1 < cells.length
      · have hc : (i : Int) + 1 < (cells.length : Int) := by exact_mod_cast hlen
        rw [if_pos hc, htn]
        simp only []
        cases hg : cells[(i + 1)]? with
        | none => rfl
        | some c => simp [cellResult]
      · have hc : ¬ ((i : Int) + 1 < (cells.length : Int)) := by
          intro hlt; exact hlen (by exact_mod_cast hlt)
        rw [if_neg hc]
        have hg : cells[(i + 1)]? = none := by
          simp [List.getElem?_eq_none_iff]
          omega
        simp only []
        rw [hg]
        rfl

/-- Claim C7 counterexample: for a document with a single never-executed
code unit (no execution count, no outputs) the code returns that unit
via the `-1` start index of strategy B, while the claim's selector —
whose strategy B requires a last unit with non-empty outputs to exist —
returns none. -/
theorem findLikelyExecutingCell_counterexample :
    findLikelyExecutingCell
        (some ⟨[⟨"code", "x = 1", [], none⟩], none⟩)
      ≠ (likelyRunningUnitSpec ⟨[⟨"code", "x = 1", [], none⟩], none⟩).map cellResult
    ∧ findLikelyExecutingCell (some ⟨[⟨"code", "x = 1", [], none⟩], none⟩)
        = some ("x = 1", [], none)
    ∧ (likelyRunningUnitSpec ⟨[⟨"code", "x = 1", [], none⟩], none⟩).map cellResult
        = none := by
  refine ⟨by decide, by decide, by decide⟩

/-- Claim C7 (amended): for every parseable document,
`_find_likely_executing_cell` returns exactly the claim's selector
amended in one point: when strategy A does not apply and no code unit
has non-empty outputs, the first code unit (if any) is returned instead
of none. -/
theorem findLikelyExecutingCell_eq_amended (nb : Notebook) :
    findLikelyExecutingCell (some nb)
      = (likelyRunningUnitAmended nb).map cellResult := by
  unfold findLikelyExecutingCell likelyRunningUnitAmended
  exact findLikelyFromCells_eq_amended _

/-- Claim C8: an unreadable or unparseable document yields all-default
results and no exception: cell statistics `(0, 0, "python")`, no
likely-running unit, and no last-output rendering. -/
theorem historyReader_malformed_defaults (markdownify : String → String)
    (language : String) (is_busy : Bool) :
    notebookCellStats none = (0, 0, "python")
    ∧ findLikelyExecutingCell none = none
    ∧ printLastCellOutput markdownify none language is_busy = [] :=
  ⟨rfl, rfl, rfl⟩

/-- Claim C9: for every pair of counters — including out-of-range ones
such as `completedUnits = 9, totalUnits = 5`, and `totalUnits = 0` — the
filled portion of the status bar never exceeds the bar width of 20, and
the rendered fill segment of `_make_status_bar` has exactly that many
cells. -/
theorem statusBarFilled_le_width (kernel_state : String)
    (cells_executed total_cells : Nat) :
    statusBarFilled cells_executed total_cells ≤ 20
    ∧ (makeStatusBar kernel_state cells_executed total_cells)[5]?
        = some (String.mk
            (List.replicate (statusBarFilled cells_executed total_cells) '█'),
          "bold cyan")
    ∧ statusBarFilled 9 5 = 20
    ∧ statusBarFilled 9 0 = 0 := by
  refine ⟨?_, rfl, by decide, by decide⟩
  unfold statusBarFilled
  exact Nat.min_le_right _ _

/-- Claim C10: when the reported state is busy and the document's
maximum execution count is positive, `main` seeds the completed counter
as that maximum plus one. -/
theorem seedCellsExecuted_busy (nb : Notebook)
    (h : 0 < (notebookCellStats (some nb)).2.1) :
    seedCellsExecuted "busy" (notebookCellStats (some nb)).2.1
      = (notebookCellStats (some nb)).2.1 + 1 := by
  unfold seedCellsExecuted
  rw [if_pos ⟨rfl, h⟩]

/-- Claim C10 witness: a one-cell notebook whose cell carries execution
count 3 seeds the counter as 4. -/
theorem seedCellsExecuted_busy_witness :
    seedCellsExecuted "busy"
        (notebookCellStats (some ⟨[⟨"code", "x", [], some 3⟩], none⟩)).2.1
      = (notebookCellStats (some ⟨[⟨"code", "x", [], some 3⟩], none⟩)).2.1 + 1 :=
  seedCellsExecuted_busy ⟨[⟨"code", "x", [], some 3⟩], none⟩ (by decide)

/-! ## Theorems about the Session Locator -/

/-- Exhausting the candidates without a match yields `none`. -/
theorem findKernelConnectionFile_exhaust (f : String → String)
    (abs_notebook : String) :
    ∀ endpoints : List EndpointResult,
      (∀ e ∈ endpoints, endpointNoMatch e abs_notebook = true) →
      findKernelConnectionFile f endpoints abs_notebook = none := by
  intro endpoints
  induction endpoints with
  | nil => intro _; rfl
  | cons e rest ih =>
    intro h
    have he := h e (List.mem_cons_self e rest)
    have hrest := fun x hx => h x (List.mem_cons_of_mem e hx)
    cases e with
    | err => simpa [findKernelConnectionFile] using ih hrest
    | noUrl => simpa [findKernelConnectionFile] using ih hrest
    | ok sessions =>
      have hsm : sessionsMatch sessions abs_notebook = none := by
        simpa [endpointNoMatch, Option.isNone_iff_eq_none] using he
      simpa [findKernelConnectionFile, hsm] using ih hrest

/-- Claim C4: a failing candidate endpoint is swallowed and the next one
is tried; with a failing first candidate and a second whose session
resolves to the requested absolute path, the second endpoint's session
is returned; and exhausting all candidates without a match yields
`none`. -/
theorem findKernelConnectionFile_swallows (f : String → String)
    (abs_notebook : String) (s : SessionDesc)
    (rest endpoints : List EndpointResult)
    (hs : s.resolved_path = abs_notebook)
    (hall : ∀ e ∈ endpoints, endpointNoMatch e abs_notebook = true) :
    findKernelConnectionFile f (EndpointResult.err :: rest) abs_notebook
        = findKernelConnectionFile f rest abs_notebook
    ∧ findKernelConnectionFile f
        [EndpointResult.err, EndpointResult.ok [s]] abs_notebook
        = some (f s.kernel_id, s.execution_state.getD "idle")
    ∧ findKernelConnectionFile f endpoints abs_notebook = none := by
  refine ⟨rfl, ?_,
    findKernelConnectionFile_exhaust f abs_notebook endpoints hall⟩
  simp [findKernelConnectionFile, sessionsMatch, hs]

/-- Claim C4 witness: the theorem applied at a concrete failing-then-
matching candidate list, and a concrete exhausted candidate list. -/
theorem findKernelConnectionFile_swallows_witness :
    findKernelConnectionFile (fun k => k) [EndpointResult.err] "/abs/nb.ipynb"
        = findKernelConnectionFile (fun k => k) [] "/abs/nb.ipynb"
    ∧ findKernelConnectionFile (fun k => k)
        [EndpointResult.err,
         EndpointResult.ok [⟨"/abs/nb.ipynb", "kid-1", some "busy"⟩]]
        "/abs/nb.ipynb"
        = some ("kid-1", "busy")
    ∧ findKernelConnectionFile (fun k => k)
        [EndpointResult.err, EndpointResult.ok []] "/abs/nb.ipynb" = none :=
  findKernelConnectionFile_swallows (fun k => k) "/abs/nb.ipynb"
    ⟨"/abs/nb.ipynb", "kid-1", some "busy"⟩ []
    [EndpointResult.err, EndpointResult.ok []] rfl (by decide)

/-! ## Theorems about the Event Dispatcher -/

/-- The channel operations of a session contain one teardown, whatever
the exit cause. -/
theorem channelOps_stop_count (cause : ExitCause) :
    (([ChannelOp.loadConnectionFile, ChannelOp.startChannels]
      ++ (match cause with
          | ExitCause.interrupted => [ChannelOp.sendCancel]
          | _ => [])
      ++ [ChannelOp.stopChannels]).count ChannelOp.stopChannels) = 1 := by
  cases cause <;> rfl

/-- Claim C3: on every exit of the session (dead status, error,
cancel-and-detach, detach-only — and, in the model, trace exhaustion)
the `finally` teardown `stop_channels` appears exactly once among the
channel operations; and a status message carrying the dead state makes
the receive loop return at once, leaving every later input unconsumed. -/
theorem sessionTeardown_once (markdownify : String → String)
    (language : String) (send_ok : Bool) (inputs rest : List LoopInput)
    (st st2 : LoopState) (m : KMsg) (hm : m.msg_type = "status")
    (hd : m.content.execution_state = some "dead") :
    (mainSession markdownify language send_ok inputs st).channel_ops.count
        ChannelOp.stopChannels = 1
    ∧ (processLoop markdownify language (LoopInput.msg m :: rest) st2).2.1
        = ExitCause.deadStatus
    ∧ (processLoop markdownify language (LoopInput.msg m :: rest) st2).2.2
        = rest := by
  have hstep : (stepMsg markdownify language m st2).2 = true := by
    simp [stepMsg, hm, hd]
  refine ⟨?_, ?_, ?_⟩
  · exact channelOps_stop_count (processLoop markdownify language inputs st).2.1
  · simp [processLoop, hstep]
  · simp [processLoop, hstep]

/-- Claim C3 witness: the theorem applied at a concrete empty trace and
a concrete dead status message. -/
theorem sessionTeardown_once_witness :
    (mainSession (fun s => s) "python" true []
        ⟨"idle", 0, 0, "", []⟩).channel_ops.count ChannelOp.stopChannels = 1
    ∧ (processLoop (fun s => s) "python"
        [LoopInput.msg ⟨"status", ⟨some "dead", none, "", "", ⟨"", ""⟩, []⟩⟩]
        ⟨"idle", 0, 0, "", []⟩).2.1 = ExitCause.deadStatus
    ∧ (processLoop (fun s => s) "python"
        [LoopInput.msg ⟨"status", ⟨some "dead", none, "", "", ⟨"", ""⟩, []⟩⟩]
        ⟨"idle", 0, 0, "", []⟩).2.2 = [] :=
  sessionTeardown_once (fun s => s) "python" true [] []
    ⟨"idle", 0, 0, "", []⟩ ⟨"idle", 0, 0, "", []⟩
    ⟨"status", ⟨some "dead", none, "", "", ⟨"", ""⟩, []⟩⟩ rfl rfl

/-- Claim C2 counterexample: with two cancel-and-detach signals in the
trace, the session is already terminated by the first — the second is
never consumed by the receive loop — so "the session terminates after
the second signal" and "outside the window it re-arms the cancel path"
are false of the code: there is no grace window at all. -/
theorem doubleInterrupt_counterexample :
    (mainSession (fun s => s) "python" true
        [LoopInput.interrupt, LoopInput.interrupt]
        ⟨"idle", 0, 0, "", []⟩).unconsumed = [LoopInput.interrupt]
    ∧ (mainSession (fun s => s) "python" true
        [LoopInput.interrupt, LoopInput.interrupt]
        ⟨"idle", 0, 0, "", []⟩).cancels_sent = 1
    ∧ (mainSession (fun s => s) "python" true
        [LoopInput.interrupt, LoopInput.interrupt]
        ⟨"idle", 0, 0, "", []⟩).cause = ExitCause.interrupted :=
  ⟨rfl, rfl, rfl⟩

/-- Claim C2 (amended): a single cancel-and-detach signal produces
exactly one cancel control-request send and terminates the session
immediately; later inputs — including any repeated signal — are never
processed by the receive loop, there is no grace window and no re-arm
logic. -/
theorem singleInterrupt_cancels_once (markdownify : String → String)
    (language : String) (send_ok : Bool) (rest : List LoopInput)
    (st : LoopState) :
    (mainSession markdownify language send_ok
        (LoopInput.interrupt :: rest) st).cancels_sent = 1
    ∧ (mainSession markdownify language send_ok
        (LoopInput.interrupt :: rest) st).cause = ExitCause.interrupted
    ∧ (mainSession markdownify language send_ok
        (LoopInput.interrupt :: rest) st).unconsumed = rest
    ∧ (mainSession markdownify language send_ok
        (LoopInput.interrupt :: rest) st).channel_ops.count
        ChannelOp.sendCancel = 1 :=
  ⟨rfl, rfl, rfl, rfl⟩

end AttachToNotebook
